import Mathlib

set_option maxHeartbeats 1000000

/- Shallow embedding of the icon-generation core of the fanta repository.
The orchestrator generateIconFiles is translated from src/unnamed/part_000.
The collaborators that are not under src (the change-detected writer
writeIfChanged, the identifier deriver iconName, the sprite assembler, the
markup optimizer and the md5 digest) are modelled from the spec and kept
abstract where the spec keeps them abstract. -/

/-- A single-quote character as a one-character string (hex escape 27). -/
def sqStr : String := "\x27"

/-- Tests whether the first list is an initial segment of the second. -/
def matchesFront : List Char → List Char → Bool
  | [], _ => true
  | _ :: _, [] => false
  | a :: as, b :: bs => a == b && matchesFront as bs

/-- Tests whether needle occurs contiguously inside the second list. -/
def hasSub (needle : List Char) : List Char → Bool
  | [] => needle.isEmpty
  | b :: t => matchesFront needle (b :: t) || hasSub needle t

/-- Embeds the JavaScript String.prototype.includes test used on lines 45 and 48. -/
def strIncludes (hay needle : String) : Bool := hasSub needle.data hay.data

/-- Tests whether the second string is a final segment of the first. -/
def endsWithStr (s suffix : String) : Bool := matchesFront suffix.data.reverse s.data.reverse

/-- Joins a list of strings with a separator, as Array.prototype.join does. -/
def joinWith (sep : String) : List String → String
  | [] => ""
  | [x] => x
  | x :: y :: xs => x ++ sep ++ joinWith sep (y :: xs)

/-- Maps a hex digit value to its lowercase character. -/
def hexDigit (n : Nat) : Char := ("0123456789abcdef").data.getD n 'f'

/-- Modelled from the JavaScript builtin JSON.stringify on one string: the
escaping of a single character inside the produced double-quoted literal. -/
def escapeChar (c : Char) : List Char :=
  if c = '"' then ['\\', '"']
  else if c = '\\' then ['\\', '\\']
  else if c = '\n' then ['\\', 'n']
  else if c = '\t' then ['\\', 't']
  else if c = '\r' then ['\\', 'r']
  else if c = '\x08' then ['\\', 'b']
  else if c = '\x0c' then ['\\', 'f']
  else if c.toNat < 32 then ['\\', 'u', '0', '0', hexDigit (c.toNat / 16), hexDigit (c.toNat % 16)]
  else [c]

/-- Escapes every character of a list, concatenating the results. -/
def escapeList : List Char → List Char
  | [] => []
  | c :: cs => escapeChar c ++ escapeList cs

/-- Modelled from the JavaScript builtin JSON.stringify applied to a string
value (line 99 of the source): a double-quoted literal with escapes. -/
def jsonStringify (s : String) : String := ⟨'"' :: (escapeList s.data ++ ['"'])⟩

/-- Embeds the regex replace on line 101 replacing every double quote with a
single quote. -/
def replaceQuotes (s : String) : String :=
  ⟨s.data.map (fun c => if c = '"' then '\x27' else c)⟩

/-- Modelled from the spec: the Identifier Deriver of section 4.1, which is
implemented outside src (icon-name module). It strips the directory and the
file extension, keeping the base name. -/
def iconName (file : String) : String :=
  let base := (file.data.reverse.takeWhile (fun c => c != '/')).reverse
  let rev := base.reverse
  if rev.contains '.' then ⟨((rev.dropWhile (fun c => c != '.')).drop 1).reverse⟩ else ⟨base⟩

/-- Modelled from node path.join in the simple directory-plus-name form used
by the source. -/
def pathJoin (a b : String) : String := a ++ "/" ++ b

/-- Embeds the regex replace on line 90 that swaps a trailing .svg for a
hash-suffixed .hash.svg in the reported name. -/
def replaceSvgSuffix (p hv : String) : String :=
  if endsWithStr p ".svg" then ⟨p.data.take (p.data.length - 4)⟩ ++ "." ++ hv ++ ".svg" else p

/-- The state of one path of the modelled filesystem: present with content,
or present but failing every read (for example a permission error). Absent
paths simply have no entry. -/
inductive Entry
  | file (content : String)
  | unreadable
deriving DecidableEq

/-- The modelled filesystem: an association list from path to entry, where
the first match wins. -/
abbrev FS := List (String × Entry)

/-- Looks a path up in the modelled filesystem. -/
def fsFind : FS → String → Option Entry
  | [], _ => none
  | (p, e) :: rest, q => if p = q then some e else fsFind rest q

/-- Records a complete write of content to a path. -/
def setFile (fs : FS) (p c : String) : FS := (p, .file c) :: fs

/-- Reads a path for a content comparison: a missing file is not an error,
any other read failure is fatal, as section 4.5 of the spec requires. -/
def readForCompare (fs : FS) (p : String) : Except Unit (Option String) :=
  match fsFind fs p with
  | some (.file c) => .ok (some c)
  | some .unreadable => .error ()
  | none => .ok none

/-- Embeds fsExtra.readFile followed by catch returning the empty string
(lines 35 to 40): every read failure collapses to empty text. -/
def readFileCatch (fs : FS) (p : String) : String :=
  match fsFind fs p with
  | some (.file c) => c
  | _ => ""

/-- Modelled from the spec: the Change-Detected Writer of section 4.5, whose
implementation lives outside src. With force it always writes; with a
supplied hash it compares the hash of the existing content against it; with
no hash it compares raw content, a missing file counting as empty text. -/
def writeIfChanged (md5Hex : String → String) (fs : FS) (filepath newContent : String)
    (hash : Option String) (force : Bool) : Except Unit (Bool × FS) :=
  match readForCompare fs filepath with
  | .error e => .error e
  | .ok existing =>
    if force then .ok (true, setFile fs filepath newContent)
    else
      match hash with
      | some hv =>
        match existing with
        | none => .ok (true, setFile fs filepath newContent)
        | some e =>
          if md5Hex e = hv then .ok (false, fs) else .ok (true, setFile fs filepath newContent)
      | none =>
        match existing with
        | none =>
          if newContent = "" then .ok (false, fs)
          else .ok (true, setFile fs filepath newContent)
        | some e =>
          if e = newContent then .ok (false, fs) else .ok (true, setFile fs filepath newContent)

/-- Modelled from the spec: the external collaborators of one run, kept
abstract as the spec keeps them abstract. generateSvgSprite is the assembly
service of section 4.2, optimize the configured svgo optimizer of line 63,
md5Hex the crypto md5 hex digest of line 68. -/
structure Externals where
  generateSvgSprite : List String → String → String
  optimize : String → String
  md5Hex : String → String

/-- The resolved options record of the source (lines 10 to 18); the three
optional flags are booleans since an absent flag is falsy. -/
structure GenerateIconFilesOptions where
  files : List String
  inputDir : String
  outputDir : String
  spriteOutputDir : String
  shouldOptimize : Bool
  shouldHash : Bool
  force : Bool

/-- The sprite target path, line 29. -/
def spriteFilepathOf (o : GenerateIconFilesOptions) : String :=
  pathJoin o.spriteOutputDir "sprite.svg"

/-- The types directory, line 30. -/
def typesDirOf (o : GenerateIconFilesOptions) : String := pathJoin o.outputDir "types"

/-- The type-declaration target path, line 31. -/
def typeOutputFilepathOf (o : GenerateIconFilesOptions) : String :=
  pathJoin (typesDirOf o) "icon-name.d.ts"

/-- The identifier-array target path, line 116. -/
def iconsOutputFilepathOf (o : GenerateIconFilesOptions) : String :=
  pathJoin o.outputDir "icons.ts"

/-- The hash-module target path, line 140. -/
def hashOutputFilepathOf (o : GenerateIconFilesOptions) : String :=
  pathJoin o.outputDir "hash.ts"

/-- The derived identifiers, line 42. -/
def iconNamesOf (o : GenerateIconFilesOptions) : List String := o.files.map iconName

/-- The current on-disk sprite text, lines 35 to 37. -/
def currentSpriteOf (fs : FS) (o : GenerateIconFilesOptions) : String :=
  readFileCatch fs (spriteFilepathOf o)

/-- The current on-disk types text, lines 38 to 40. -/
def currentTypesOf (fs : FS) (o : GenerateIconFilesOptions) : String :=
  readFileCatch fs (typeOutputFilepathOf o)

/-- The sprite staleness test, lines 44 to 46. -/
def spriteUpToDateOf (fs : FS) (o : GenerateIconFilesOptions) : Bool :=
  (iconNamesOf o).all fun name => strIncludes (currentSpriteOf fs o) ("id=" ++ name)

/-- The types staleness test, lines 47 to 49: each name must occur as a
double-quoted literal. -/
def typesUpToDateOf (fs : FS) (o : GenerateIconFilesOptions) : Bool :=
  (iconNamesOf o).all fun name => strIncludes (currentTypesOf fs o) ("\"" ++ name ++ "\"")

/-- The combined short-circuit condition, line 51. -/
def upToDateCheck (fs : FS) (o : GenerateIconFilesOptions) : Bool :=
  spriteUpToDateOf fs o && typesUpToDateOf fs o

/-- The final sprite content: the assembled document, optionally optimized
(lines 56 to 64). -/
def spriteOutputOf (ext : Externals) (o : GenerateIconFilesOptions) : String :=
  let output := ext.generateSvgSprite o.files o.inputDir
  if o.shouldOptimize then ext.optimize output else output

/-- The optional digest over the final sprite content, lines 66 to 69. -/
def hashValueOf (ext : Externals) (o : GenerateIconFilesOptions) : Option String :=
  if o.shouldHash then some (ext.md5Hex (spriteOutputOf ext o)) else none

/-- The JSON-quoted identifiers, line 99. -/
def stringifiedIconNamesOf (o : GenerateIconFilesOptions) : List String :=
  (iconNamesOf o).map jsonStringify

/-- The type-declaration content, lines 100 to 102: a template whose literal
indentation is part of the output, the joined names having every double
quote replaced by a single quote. -/
def typeOutputContentOf (o : GenerateIconFilesOptions) : String :=
  "export type IconName =\n    \t| " ++
    replaceQuotes (joinWith "\n\t| " (stringifiedIconNamesOf o)) ++ ";\n    "

/-- The identifier-array content, lines 117 to 122, keeping the double
quotes produced by JSON.stringify. -/
def iconsOutputContentOf (o : GenerateIconFilesOptions) : String :=
  "import { IconName } from " ++ sqStr ++ "./types/icon-name" ++ sqStr ++
    ";\n  \n  export const icons = [\n  \t" ++
    joinWith ",\n\t" (stringifiedIconNamesOf o) ++ ",\n  ] satisfies Array<IconName>;\n  "

/-- The hash-module content, line 141. -/
def hashFileContentOf (ext : Externals) (o : GenerateIconFilesOptions) : String :=
  "export const hash = " ++ sqStr ++ (hashValueOf ext o).getD "" ++ sqStr ++ ";\n"

/-- The observable outcome of one run: either the early up-to-date return of
lines 51 to 54, or the regeneration path with the four changed flags and the
final changed-or-up-to-date report of lines 156 to 160. The hash flag is
none when no hash module was considered. -/
inductive RunReport
  | upToDate
  | generated (spriteChanged typesChanged iconsChanged : Bool)
      (hashFileChanged : Option Bool) (overallChanged : Bool)
deriving DecidableEq

/-- The regeneration path of generateIconFiles, lines 56 to 160: assemble,
optionally optimize, optionally hash, then the three or four change-detected
writes in source order, finally the aggregate report of line 156, which
tests only the sprite, types and icons flags. -/
def regenerate (ext : Externals) (o : GenerateIconFilesOptions) (fs : FS) :
    Except Unit (RunReport × FS) :=
  match writeIfChanged ext.md5Hex fs (spriteFilepathOf o) (spriteOutputOf ext o)
      (hashValueOf ext o) o.force with
  | .error e => .error e
  | .ok (spriteChanged, fs₁) =>
    match writeIfChanged ext.md5Hex fs₁ (typeOutputFilepathOf o) (typeOutputContentOf o)
        none o.force with
    | .error e => .error e
    | .ok (typesChanged, fs₂) =>
      match writeIfChanged ext.md5Hex fs₂ (iconsOutputFilepathOf o) (iconsOutputContentOf o)
          none o.force with
      | .error e => .error e
      | .ok (iconsChanged, fs₃) =>
        if o.shouldHash then
          match writeIfChanged ext.md5Hex fs₃ (hashOutputFilepathOf o)
              (hashFileContentOf ext o) none o.force with
          | .error e => .error e
          | .ok (hashFileChanged, fs₄) =>
            .ok (.generated spriteChanged typesChanged iconsChanged (some hashFileChanged)
              (spriteChanged || typesChanged || iconsChanged), fs₄)
        else
          .ok (.generated spriteChanged typesChanged iconsChanged none
            (spriteChanged || typesChanged || iconsChanged), fs₃)

/-- The orchestrator, lines 20 to 161: read the two current artifacts with
read failures collapsed to empty text, test staleness, and either return up
to date at once or regenerate. The ensureDir call touches only directories
and the model tracks only files. -/
def generateIconFiles (ext : Externals) (o : GenerateIconFilesOptions) (fs : FS) :
    Except Unit (RunReport × FS) :=
  if upToDateCheck fs o then .ok (.upToDate, fs) else regenerate ext o fs

/-- Projects the report out of a run result. -/
def runReport (x : Except Unit (RunReport × FS)) : Option RunReport :=
  match x with
  | .ok (r, _) => some r
  | .error _ => none

/-- Projects the final filesystem out of a run result. -/
def resultFS (x : Except Unit (RunReport × FS)) : FS :=
  match x with
  | .ok (_, f) => f
  | .error _ => []

/-- Holds of a report that recorded no write at all and reported up to date. -/
def noWriteReport : RunReport → Bool
  | .upToDate => true
  | .generated s t i hc ov => !s && !t && !i && !(hc.getD false) && !ov

/-- The last character of a string, if any. -/
def lastCh (s : String) : Option Char := s.data.reverse.head?

/-- Splits a character list at every newline, keeping every line. -/
def splitNlAux : List Char → List Char → List (List Char)
  | acc, [] => [acc.reverse]
  | acc, x :: xs => if x = '\n' then acc.reverse :: splitNlAux [] xs else splitNlAux (x :: acc) xs

/-- The lines of a character list. -/
def splitNl (s : List Char) : List (List Char) := splitNlAux [] s

/-- Data-level join with a separator, mirroring joinWith. -/
def joinData (sepd : List Char) : List (List Char) → List Char
  | [] => []
  | [r] => r
  | r :: rest => r ++ sepd ++ joinData sepd rest

/-- The decorated lines that the type-declaration body prints for a list of
already-quoted names: the last line carries the closing semicolon, the later
lines the tab-pipe indentation of the join separator. -/
def decorateT (ind : List Char) : List (List Char) → List (List Char)
  | [] => []
  | [r] => [ind ++ r ++ [';']]
  | r :: rest => (ind ++ r) :: decorateT ['\t', '|', ' '] rest

/-- The decorated lines that the identifier-array body prints for a list of
already-quoted names: every line ends with a comma, later lines are
tab-indented. -/
def decorateI (ind : List Char) : List (List Char) → List (List Char)
  | [] => []
  | r :: rest => (ind ++ r ++ [',']) :: decorateI ['\t'] rest

/-- Characters stripped from the front of a type-union line. -/
def stripSetT (c : Char) : Bool := c == ' ' || c == '\t' || c == '|'

/-- Characters stripped from the front of an identifier-array line. -/
def stripSetI (c : Char) : Bool := c == ' ' || c == '\t'

/-- Recovers the quoted literal from one line of the type union. -/
def stripTypeLine (l : List Char) : List Char :=
  ((l.dropWhile stripSetT).reverse.dropWhile (fun c => c == ';')).reverse

/-- Recovers the quoted literal from one line of the identifier array. -/
def stripIconLine (l : List Char) : List Char :=
  ((l.dropWhile stripSetI).reverse.dropWhile (fun c => c == ',')).reverse

/-- Reads the ordered list of quoted literals back out of a generated
type-declaration text: every line between the header and the trailer holds
exactly one literal. -/
def extractTypeLiterals (content : String) : List String :=
  (((splitNl content.data).drop 1).dropLast).map fun l => ⟨stripTypeLine l⟩

/-- Reads the ordered list of quoted literals back out of a generated
identifier-array text: every line between the three header lines and the two
trailer lines holds exactly one literal. -/
def extractIconLiterals (content : String) : List String :=
  ((((splitNl content.data).drop 3).dropLast).dropLast).map fun l => ⟨stripIconLine l⟩

/- Concrete collaborators and scenarios used by witnesses and
counterexamples. -/

/-- A concrete instance of the external collaborators: a sprite assembler
that emits one id marker per file, the identity optimizer, and a
deterministic stand-in digest. -/
def wExt : Externals :=
  { generateSvgSprite := fun files _ =>
      "<svg>" ++ joinWith "" (files.map fun f => "<symbol id=" ++ iconName f ++ "></symbol>") ++
        "</svg>"
    optimize := fun s => s
    md5Hex := fun s => "h" ++ toString s.length }

/-- Scenario options for the aggregation claim: hashing on, force off. -/
def c1o : GenerateIconFilesOptions :=
  { files := ["home.svg"], inputDir := "icons", outputDir := "out", spriteOutputDir := "pub"
    shouldOptimize := false, shouldHash := true, force := false }

/-- Scenario filesystem for the aggregation claim: sprite, types and icons
artifacts already hold exactly the freshly computed contents, the hash
module is missing. -/
def c1fs : FS :=
  [(spriteFilepathOf c1o, .file (spriteOutputOf wExt c1o)),
   (typeOutputFilepathOf c1o, .file (typeOutputContentOf c1o)),
   (iconsOutputFilepathOf c1o, .file (iconsOutputContentOf c1o))]

/-- The filesystem after the aggregation-claim run. -/
def c1fs4 : FS := resultFS (generateIconFiles wExt c1o c1fs)

/-- Scenario options for the staleness claim: no hashing, force off. -/
def c2o : GenerateIconFilesOptions :=
  { files := ["home.svg"], inputDir := "icons", outputDir := "out", spriteOutputDir := "pub"
    shouldOptimize := false, shouldHash := false, force := false }

/-- Scenario filesystem for the staleness counterexample: the sprite text
carries the id marker and the types text carries the identifier
single-quoted. -/
def c2fs : FS :=
  [(spriteFilepathOf c2o, .file "<symbol id=home/>"),
   (typeOutputFilepathOf c2o, .file (sqStr ++ "home" ++ sqStr))]

/-- Scenario filesystem for the amended staleness claim: the types text
carries the identifier double-quoted. -/
def c2wfs : FS :=
  [(spriteFilepathOf c2o, .file "<symbol id=home/>"),
   (typeOutputFilepathOf c2o, .file "\"home\"")]

/-- Scenario options for the idempotence counterexample: force on. -/
def c3o : GenerateIconFilesOptions :=
  { files := ["home.svg"], inputDir := "icons", outputDir := "out", spriteOutputDir := "pub"
    shouldOptimize := false, shouldHash := true, force := true }

/-- The filesystem left by a first forced run from an empty disk. -/
def c3fs1 : FS := resultFS (generateIconFiles wExt c3o [])

/-- Scenario options for the amended idempotence claim: force off. -/
def c3oNF : GenerateIconFilesOptions :=
  { files := ["home.svg"], inputDir := "icons", outputDir := "out", spriteOutputDir := "pub"
    shouldOptimize := false, shouldHash := true, force := false }

/-- The filesystem left by a first unforced run from an empty disk. -/
def c3nfFs1 : FS := resultFS (generateIconFiles wExt c3oNF [])

/-- The report of the first unforced run from an empty disk. -/
def c3nfR1 : RunReport :=
  match generateIconFiles wExt c3oNF [] with
  | .ok (r, _) => r
  | .error _ => .upToDate

/-- Scenario options for the force claim: hashing on, force on. -/
def c4o : GenerateIconFilesOptions :=
  { files := ["home.svg"], inputDir := "icons", outputDir := "out", spriteOutputDir := "pub"
    shouldOptimize := false, shouldHash := true, force := true }

/-- Scenario filesystem for the force claim: every artifact already holds
exactly the freshly computed content. -/
def c4fs : FS :=
  [(spriteFilepathOf c4o, .file (spriteOutputOf wExt c4o)),
   (typeOutputFilepathOf c4o, .file (typeOutputContentOf c4o)),
   (iconsOutputFilepathOf c4o, .file (iconsOutputContentOf c4o)),
   (hashOutputFilepathOf c4o, .file (hashFileContentOf wExt c4o))]

/-- Scenario options for the ordering claim: three files in a fixed order. -/
def c5o : GenerateIconFilesOptions :=
  { files := ["a.svg", "b.svg", "c.svg"], inputDir := "icons", outputDir := "out"
    spriteOutputDir := "pub", shouldOptimize := false, shouldHash := false, force := false }

/-- Scenario filesystem for the read-error claims: the current sprite is
unreadable, the current types file is missing. -/
def c9fs : FS := [(spriteFilepathOf c1o, .unreadable)]

/-- Scenario options for the empty-files claim. -/
def c10o : GenerateIconFilesOptions :=
  { files := [], inputDir := "icons", outputDir := "out", spriteOutputDir := "pub"
    shouldOptimize := true, shouldHash := true, force := true }

/- General helper lemmas about the embedded string and filesystem
operations. -/

theorem matchesFront_subset :
    ∀ n h : List Char, matchesFront n h = true → ∀ c ∈ n, c ∈ h := by
  intro n
  induction n with
  | nil => intro h _ c hc; simp at hc
  | cons a as ih =>
    intro h hm c hc
    cases h with
    | nil => simp [matchesFront] at hm
    | cons b bs =>
      simp [matchesFront] at hm
      rcases List.mem_cons.mp hc with hc | hc
      · subst hc; simp [hm.1]
      · exact List.mem_cons.mpr (Or.inr (ih bs hm.2 c hc))

theorem mem_of_hasSub : ∀ h n : List Char, hasSub n h = true → ∀ c ∈ n, c ∈ h := by
  intro h
  induction h with
  | nil =>
    intro n hh c hc
    simp [hasSub, List.isEmpty_iff] at hh
    subst hh; simp at hc
  | cons b t ih =>
    intro n hh c hc
    simp [hasSub] at hh
    rcases hh with h1 | h2
    · exact matchesFront_subset n (b :: t) h1 c hc
    · exact List.mem_cons.mpr (Or.inr (ih n h2 c hc))

theorem strIncludes_false_of_missing (hay needle : String) (c : Char)
    (h1 : c ∈ needle.data) (h2 : c ∉ hay.data) : strIncludes hay needle = false := by
  cases he : strIncludes hay needle
  · rfl
  · exact absurd (mem_of_hasSub hay.data needle.data he c h1) h2

theorem all_eq_false_of_forall_false {l : List String} (f : String → Bool) (hne : l ≠ [])
    (h : ∀ x ∈ l, f x = false) : l.all f = false := by
  cases l with
  | nil => exact absurd rfl hne
  | cons a t => simp [List.all_cons, h a (by simp)]

theorem fsFind_setFile_self (fs : FS) (p c : String) :
    fsFind (setFile fs p c) p = some (.file c) := by
  simp [setFile, fsFind]

theorem fsFind_setFile_ne (fs : FS) (p c q : String) (h : p ≠ q) :
    fsFind (setFile fs p c) q = fsFind fs q := by
  simp [setFile, fsFind, h]

theorem needle_id_ne_nil (n : String) : ("id=" ++ n).data ≠ [] := by
  simp [String.data_append]

theorem needle_quote_mem (n : String) : '"' ∈ ("\"" ++ n ++ "\"").data := by
  simp [String.data_append]

theorem readFileCatch_none (fs : FS) (p : String) (h : fsFind fs p = none) :
    readFileCatch fs p = "" := by
  simp [readFileCatch, h]

theorem readFileCatch_unreadable (fs : FS) (p : String)
    (h : fsFind fs p = some .unreadable) : readFileCatch fs p = "" := by
  simp [readFileCatch, h]

theorem spriteUpToDate_false_of_empty (fs : FS) (o : GenerateIconFilesOptions)
    (hne : o.files ≠ []) (h : currentSpriteOf fs o = "") : spriteUpToDateOf fs o = false := by
  unfold spriteUpToDateOf
  apply all_eq_false_of_forall_false
  · simp [iconNamesOf, hne]
  · intro n _
    rw [h]
    show hasSub ("id=" ++ n).data [] = false
    cases hd : ("id=" ++ n).data with
    | nil => exact absurd hd (needle_id_ne_nil n)
    | cons a t => simp [hasSub]

theorem typesUpToDate_false_of_empty (fs : FS) (o : GenerateIconFilesOptions)
    (hne : o.files ≠ []) (h : currentTypesOf fs o = "") : typesUpToDateOf fs o = false := by
  unfold typesUpToDateOf
  apply all_eq_false_of_forall_false
  · simp [iconNamesOf, hne]
  · intro n _
    rw [h]
    show hasSub ("\"" ++ n ++ "\"").data [] = false
    cases hd : ("\"" ++ n ++ "\"").data with
    | nil =>
      have := needle_quote_mem n
      rw [hd] at this
      simp at this
    | cons a t => simp [hasSub]

theorem regenerate_inv (ext : Externals) (o : GenerateIconFilesOptions) (fs fs' : FS)
    (r : RunReport) (h : regenerate ext o fs = .ok (r, fs')) :
    ∃ sc fsA tc fsB ic fsC,
      writeIfChanged ext.md5Hex fs (spriteFilepathOf o) (spriteOutputOf ext o)
        (hashValueOf ext o) o.force = .ok (sc, fsA) ∧
      writeIfChanged ext.md5Hex fsA (typeOutputFilepathOf o) (typeOutputContentOf o)
        none o.force = .ok (tc, fsB) ∧
      writeIfChanged ext.md5Hex fsB (iconsOutputFilepathOf o) (iconsOutputContentOf o)
        none o.force = .ok (ic, fsC) ∧
      ((o.shouldHash = true ∧ ∃ hc4 fsD,
          writeIfChanged ext.md5Hex fsC (hashOutputFilepathOf o) (hashFileContentOf ext o)
            none o.force = .ok (hc4, fsD) ∧
          r = .generated sc tc ic (some hc4) (sc || tc || ic) ∧ fs' = fsD) ∨
       (o.shouldHash = false ∧ r = .generated sc tc ic none (sc || tc || ic) ∧ fs' = fsC)) := by
  unfold regenerate at h
  cases hw1 : writeIfChanged ext.md5Hex fs (spriteFilepathOf o) (spriteOutputOf ext o)
      (hashValueOf ext o) o.force with
  | error e => rw [hw1] at h; simp at h
  | ok pr1 =>
    obtain ⟨sc, fsA⟩ := pr1
    rw [hw1] at h
    simp only at h
    cases hw2 : writeIfChanged ext.md5Hex fsA (typeOutputFilepathOf o) (typeOutputContentOf o)
        none o.force with
    | error e => rw [hw2] at h; simp at h
    | ok pr2 =>
      obtain ⟨tc, fsB⟩ := pr2
      rw [hw2] at h
      simp only at h
      cases hw3 : writeIfChanged ext.md5Hex fsB (iconsOutputFilepathOf o) (iconsOutputContentOf o)
          none o.force with
      | error e => rw [hw3] at h; simp at h
      | ok pr3 =>
        obtain ⟨ic, fsC⟩ := pr3
        rw [hw3] at h
        simp only at h
        refine ⟨sc, fsA, tc, fsB, ic, fsC, rfl, hw2, hw3, ?_⟩
        by_cases hsh : o.shouldHash = true
        · rw [if_pos hsh] at h
          cases hw4 : writeIfChanged ext.md5Hex fsC (hashOutputFilepathOf o)
              (hashFileContentOf ext o) none o.force with
          | error e => rw [hw4] at h; simp at h
          | ok pr4 =>
            obtain ⟨hc4, fsD⟩ := pr4
            rw [hw4] at h
            simp only [Except.ok.injEq, Prod.mk.injEq] at h
            exact Or.inl ⟨hsh, hc4, fsD, rfl, h.1.symm, h.2.symm⟩
        · rw [if_neg hsh] at h
          simp only [Except.ok.injEq, Prod.mk.injEq] at h
          exact Or.inr ⟨Bool.not_eq_true _ ▸ eq_false_of_ne_true hsh, h.1.symm, h.2.symm⟩

theorem typesUpToDate_false_of_no_quote (fs : FS) (o : GenerateIconFilesOptions)
    (hne : o.files ≠ []) (h : '"' ∉ (currentTypesOf fs o).data) :
    typesUpToDateOf fs o = false := by
  unfold typesUpToDateOf
  apply all_eq_false_of_forall_false
  · simp [iconNamesOf, hne]
  · intro n _
    exact strIncludes_false_of_missing _ _ '"' (needle_quote_mem n) h

/- Claim C10. -/

/-- C10: with an empty files list both staleness tests are vacuously true,
so generateIconFiles returns up to date at once, writing nothing and never
invoking assembly, for every collaborator set, every flag combination and
every starting filesystem. -/
theorem C10_empty_files_up_to_date (ext : Externals) (o : GenerateIconFilesOptions) (fs : FS)
    (h : o.files = []) : generateIconFiles ext o fs = .ok (.upToDate, fs) := by
  simp [generateIconFiles, upToDateCheck, spriteUpToDateOf, typesUpToDateOf, iconNamesOf, h]

/-- C10 witness: a concrete empty-files run with every flag set returns the
starting filesystem untouched. -/
theorem C10_empty_files_up_to_date_witness :
    c10o.files = [] ∧ generateIconFiles wExt c10o c1fs = .ok (.upToDate, c1fs) :=
  ⟨rfl, C10_empty_files_up_to_date wExt c10o c1fs rfl⟩

/- Claim C8. -/

/-- C8: a missing current sprite file or types file raises no error: the
missing artifact reads as empty text, so with a non-empty files list the
staleness check returns false and the run takes the regeneration path. -/
theorem C8_missing_treated_empty (ext : Externals) (o : GenerateIconFilesOptions) (fs : FS)
    (hne : o.files ≠ [])
    (hmiss : fsFind fs (spriteFilepathOf o) = none ∨
      fsFind fs (typeOutputFilepathOf o) = none) :
    (fsFind fs (spriteFilepathOf o) = none → currentSpriteOf fs o = "") ∧
    (fsFind fs (typeOutputFilepathOf o) = none → currentTypesOf fs o = "") ∧
    upToDateCheck fs o = false ∧
    generateIconFiles ext o fs = regenerate ext o fs := by
  have hC : upToDateCheck fs o = false := by
    rcases hmiss with hm | hm
    · have := spriteUpToDate_false_of_empty fs o hne (readFileCatch_none fs _ hm)
      simp [upToDateCheck, this]
    · have := typesUpToDate_false_of_empty fs o hne (readFileCatch_none fs _ hm)
      simp [upToDateCheck, this]
  exact ⟨fun h => readFileCatch_none fs _ h, fun h => readFileCatch_none fs _ h, hC,
    by simp [generateIconFiles, hC]⟩

/-- C8 witness: on an empty filesystem both artifacts are missing, both read
as empty, and a concrete run regenerates. -/
theorem C8_missing_treated_empty_witness :
    fsFind ([] : FS) (spriteFilepathOf c2o) = none ∧
    ((fsFind ([] : FS) (spriteFilepathOf c2o) = none → currentSpriteOf [] c2o = "") ∧
     (fsFind ([] : FS) (typeOutputFilepathOf c2o) = none → currentTypesOf [] c2o = "") ∧
     upToDateCheck [] c2o = false ∧
     generateIconFiles wExt c2o [] = regenerate wExt c2o []) :=
  ⟨rfl, C8_missing_treated_empty wExt c2o [] (by decide) (Or.inl rfl)⟩

/- Claim C9. -/

/-- C9: the staleness pre-check reads swallow every read failure, not only
missing files: an unreadable current sprite or types file reads as empty
text, the check proceeds and returns false, and the run regenerates instead
of aborting. -/
theorem C9_read_errors_swallowed (ext : Externals) (o : GenerateIconFilesOptions) (fs : FS)
    (hne : o.files ≠ [])
    (hbad : fsFind fs (spriteFilepathOf o) = some .unreadable ∨
      fsFind fs (typeOutputFilepathOf o) = some .unreadable) :
    (fsFind fs (spriteFilepathOf o) = some .unreadable → currentSpriteOf fs o = "") ∧
    (fsFind fs (typeOutputFilepathOf o) = some .unreadable → currentTypesOf fs o = "") ∧
    upToDateCheck fs o = false ∧
    generateIconFiles ext o fs = regenerate ext o fs := by
  have hC : upToDateCheck fs o = false := by
    rcases hbad with hm | hm
    · have := spriteUpToDate_false_of_empty fs o hne (readFileCatch_unreadable fs _ hm)
      simp [upToDateCheck, this]
    · have := typesUpToDate_false_of_empty fs o hne (readFileCatch_unreadable fs _ hm)
      simp [upToDateCheck, this]
  exact ⟨fun h => readFileCatch_unreadable fs _ h, fun h => readFileCatch_unreadable fs _ h, hC,
    by simp [generateIconFiles, hC]⟩

/-- C9 witness: a concrete filesystem whose sprite entry fails every read is
treated as empty text and the run proceeds to regeneration. -/
theorem C9_read_errors_swallowed_witness :
    fsFind c9fs (spriteFilepathOf c1o) = some Entry.unreadable ∧
    ((fsFind c9fs (spriteFilepathOf c1o) = some .unreadable → currentSpriteOf c9fs c1o = "") ∧
     (fsFind c9fs (typeOutputFilepathOf c1o) = some .unreadable → currentTypesOf c9fs c1o = "") ∧
     upToDateCheck c9fs c1o = false ∧
     generateIconFiles wExt c1o c9fs = regenerate wExt c1o c9fs) :=
  ⟨by decide, C9_read_errors_swallowed wExt c1o c9fs (by decide) (Or.inl (by decide))⟩

/- Claim C2. -/

/-- C2 counterexample: the types staleness test demands the identifier
double-quoted, so a types text holding the identifier only single-quoted
(with the id marker present in the sprite text) fails the check and the run
regenerates instead of short-circuiting, refuting the claim that a single-
quoted occurrence suffices. -/
theorem C2_counterexample :
    strIncludes (currentSpriteOf c2fs c2o) ("id=" ++ iconName "home.svg") = true ∧
    strIncludes (currentTypesOf c2fs c2o) (sqStr ++ iconName "home.svg" ++ sqStr) = true ∧
    upToDateCheck c2fs c2o = false ∧
    runReport (generateIconFiles wExt c2o c2fs) = some (.generated true true true none true) := by
  refine ⟨by decide, by decide, by decide, by decide⟩

/-- C2 (amended): when every derived identifier appears as an id marker in
the current sprite text and as a double-quoted literal in the current types
text, the staleness check returns true and generateIconFiles short-circuits,
reporting up to date without invoking any collaborator and without touching
the filesystem. -/
theorem C2_up_to_date_short_circuit (o : GenerateIconFilesOptions) (fs : FS)
    (_hne : o.files ≠ [])
    (hall : ∀ n ∈ iconNamesOf o,
      strIncludes (currentSpriteOf fs o) ("id=" ++ n) = true ∧
      strIncludes (currentTypesOf fs o) ("\"" ++ n ++ "\"") = true) :
    ∀ ext : Externals, generateIconFiles ext o fs = .ok (.upToDate, fs) := by
  intro ext
  have h1 : spriteUpToDateOf fs o = true := by
    unfold spriteUpToDateOf
    rw [List.all_eq_true]
    intro n hn
    exact (hall n hn).1
  have h2 : typesUpToDateOf fs o = true := by
    unfold typesUpToDateOf
    rw [List.all_eq_true]
    intro n hn
    exact (hall n hn).2
  simp [generateIconFiles, upToDateCheck, h1, h2]

/-- C2 witness: with the marker and a double-quoted literal both present on
disk, a concrete run short-circuits and reports up to date. -/
theorem C2_up_to_date_short_circuit_witness :
    c2o.files ≠ [] ∧ generateIconFiles wExt c2o c2wfs = .ok (.upToDate, c2wfs) :=
  ⟨by decide, C2_up_to_date_short_circuit c2o c2wfs (by decide) (by decide) wExt⟩

/- Claim C1. -/

/-- C1 counterexample: a run in which only the hash-module write reports a
change ends with the overall report false (up to date), because line 156 of
the source tests only the sprite, types and icons flags; the overall result
is therefore not the OR of all four flags. -/
theorem C1_counterexample :
    runReport (generateIconFiles wExt c1o c1fs) =
      some (.generated false false false (some true) false) ∧
    ((false : Bool) || false || false || true) ≠ false := by
  refine ⟨by decide, by decide⟩

/-- C1 (amended): the overall changed result of every regeneration run is
the OR of the sprite, types and icons flags only; the hash-module flag is
not part of the aggregation, so a run whose only change is the hash module
is reported up to date. -/
theorem C1_overall_or_three (ext : Externals) (o : GenerateIconFilesOptions) (fs fs' : FS)
    (s t i : Bool) (hc : Option Bool) (ov : Bool)
    (h : generateIconFiles ext o fs = .ok (.generated s t i hc ov, fs')) :
    ov = (s || t || i) := by
  unfold generateIconFiles at h
  split at h
  · simp at h
  · obtain ⟨sc, fsA, tc, fsB, ic, fsC, _, _, _, hrest⟩ :=
      regenerate_inv ext o fs fs' (.generated s t i hc ov) h
    rcases hrest with ⟨_, hc4, fsD, _, hr, _⟩ | ⟨_, hr, _⟩ <;>
      · injection hr with h1 h2 h3 h4 h5
        subst h1; subst h2; subst h3; exact h5

/- Change-detected-writer lemmas used by the remaining claims. -/

theorem wic_fs_of_ok (m : String → String) (fs : FS) (p c : String) (hv : Option String)
    (f b : Bool) (fs' : FS) (h : writeIfChanged m fs p c hv f = .ok (b, fs')) :
    fs' = fs ∨ fs' = setFile fs p c := by
  unfold writeIfChanged readForCompare at h
  cases hf : fsFind fs p with
  | none =>
    rw [hf] at h
    simp only at h
    split at h
    · exact Or.inr (by simp_all)
    · cases hv with
      | some hvv => exact Or.inr (by simp_all)
      | none =>
        simp only at h
        split at h
        · exact Or.inl (by simp_all)
        · exact Or.inr (by simp_all)
  | some e =>
    cases e with
    | file ec =>
      rw [hf] at h
      simp only at h
      split at h
      · exact Or.inr (by simp_all)
      · cases hv with
        | some hvv =>
          simp only at h
          split at h
          · exact Or.inl (by simp_all)
          · exact Or.inr (by simp_all)
        | none =>
          simp only at h
          split at h
          · exact Or.inl (by simp_all)
          · exact Or.inr (by simp_all)
    | unreadable => rw [hf] at h; simp at h

theorem wic_frame (m : String → String) (fs : FS) (p c : String) (hv : Option String)
    (f b : Bool) (fs' : FS) (q : String) (hq : q ≠ p)
    (h : writeIfChanged m fs p c hv f = .ok (b, fs')) : fsFind fs' q = fsFind fs q := by
  rcases wic_fs_of_ok m fs p c hv f b fs' h with h1 | h1
  · rw [h1]
  · rw [h1]; exact fsFind_setFile_ne fs p c q (Ne.symm hq)

theorem wic_post_raw (m : String → String) (fs : FS) (p c : String)
    (f b : Bool) (fs' : FS) (hc : c ≠ "")
    (h : writeIfChanged m fs p c none f = .ok (b, fs')) :
    fsFind fs' p = some (.file c) := by
  unfold writeIfChanged readForCompare at h
  cases hf : fsFind fs p with
  | none =>
    rw [hf] at h
    simp only at h
    repeat' split at h
    all_goals simp only [Except.ok.injEq, Prod.mk.injEq] at h
    all_goals obtain ⟨h1, h2⟩ := h
    all_goals subst h2
    all_goals simp_all [fsFind_setFile_self]
  | some e =>
    cases e with
    | file ec =>
      rw [hf] at h
      simp only at h
      repeat' split at h
      all_goals simp only [Except.ok.injEq, Prod.mk.injEq] at h
      all_goals obtain ⟨h1, h2⟩ := h
      all_goals subst h2
      all_goals simp_all [fsFind_setFile_self]
    | unreadable => rw [hf] at h; simp at h

theorem wic_force (m : String → String) (fs : FS) (p c : String) (hv : Option String)
    (hfe : fsFind fs p ≠ some Entry.unreadable) :
    writeIfChanged m fs p c hv true = .ok (true, setFile fs p c) := by
  unfold writeIfChanged readForCompare
  cases hf : fsFind fs p with
  | none => simp
  | some e =>
    cases e with
    | file ec => simp
    | unreadable => exact absurd hf hfe

theorem wic_stab_raw (m : String → String) (fs : FS) (p c : String)
    (b : Bool) (fs₂ : FS) (gs : FS)
    (h : writeIfChanged m fs p c none false = .ok (b, fs₂))
    (hg : fsFind gs p = fsFind fs₂ p) :
    writeIfChanged m gs p c none false = .ok (false, gs) := by
  unfold writeIfChanged readForCompare at h ⊢
  cases hf : fsFind fs p with
  | none =>
    rw [hf] at h
    simp only [Bool.false_eq_true, if_false] at h
    split at h
    · rename_i hce
      have h2 : fs₂ = fs := by simp_all
      rw [h2, hf] at hg
      rw [hg]
      simp [hce]
    · have h2 : fs₂ = setFile fs p c := by simp_all
      rw [h2, fsFind_setFile_self] at hg
      rw [hg]
      simp
  | some e =>
    cases e with
    | file ec =>
      rw [hf] at h
      simp only [Bool.false_eq_true, if_false] at h
      split at h
      · rename_i hec
        have h2 : fs₂ = fs := by simp_all
        rw [h2, hf] at hg
        rw [hg]
        simp [hec]
      · have h2 : fs₂ = setFile fs p c := by simp_all
        rw [h2, fsFind_setFile_self] at hg
        rw [hg]
        simp
    | unreadable => rw [hf] at h; simp at h

theorem wic_stab_hash (m : String → String) (fs : FS) (p c : String)
    (b : Bool) (fs₂ : FS) (gs : FS)
    (h : writeIfChanged m fs p c (some (m c)) false = .ok (b, fs₂))
    (hg : fsFind gs p = fsFind fs₂ p) :
    writeIfChanged m gs p c (some (m c)) false = .ok (false, gs) := by
  unfold writeIfChanged readForCompare at h ⊢
  cases hf : fsFind fs p with
  | none =>
    rw [hf] at h
    simp only [Bool.false_eq_true, if_false] at h
    have h2 : fs₂ = setFile fs p c := by simp_all
    rw [h2, fsFind_setFile_self] at hg
    rw [hg]
    simp
  | some e =>
    cases e with
    | file ec =>
      rw [hf] at h
      simp only [Bool.false_eq_true, if_false] at h
      split at h
      · rename_i hec
        have h2 : fs₂ = fs := by simp_all
        rw [h2, hf] at hg
        rw [hg]
        simp [hec]
      · have h2 : fs₂ = setFile fs p c := by simp_all
        rw [h2, fsFind_setFile_self] at hg
        rw [hg]
        simp
    | unreadable => rw [hf] at h; simp at h

/- Path arithmetic: the four write targets and the hash-suffixed reported
name are pairwise distinct strings, for every option record. -/

theorem data_pathJoin (a b : String) : (pathJoin a b).data = a.data ++ '/' :: b.data := by
  show (a ++ "/" ++ b).data = _
  rw [String.data_append, String.data_append, List.append_assoc]
  rfl

theorem headq_append {α : Type} (l₁ l₂ : List α) (h : l₁ ≠ []) :
    (l₁ ++ l₂).head? = l₁.head? := by
  cases l₁ <;> simp_all

theorem lastCh_pathJoin (a b : String) (hb : b.data ≠ []) :
    lastCh (pathJoin a b) = b.data.reverse.head? := by
  unfold lastCh
  rw [data_pathJoin, List.reverse_append, List.reverse_cons]
  rw [headq_append _ _ (by simp)]
  exact headq_append _ _ (by simpa using hb)

theorem lastCh_sp (o : GenerateIconFilesOptions) : lastCh (spriteFilepathOf o) = some 'g' := by
  unfold spriteFilepathOf
  rw [lastCh_pathJoin _ _ (by decide)]
  decide

theorem lastCh_tp (o : GenerateIconFilesOptions) :
    lastCh (typeOutputFilepathOf o) = some 's' := by
  unfold typeOutputFilepathOf
  rw [lastCh_pathJoin _ _ (by decide)]
  decide

theorem lastCh_ip (o : GenerateIconFilesOptions) :
    lastCh (iconsOutputFilepathOf o) = some 's' := by
  unfold iconsOutputFilepathOf
  rw [lastCh_pathJoin _ _ (by decide)]
  decide

theorem lastCh_hp (o : GenerateIconFilesOptions) :
    lastCh (hashOutputFilepathOf o) = some 's' := by
  unfold hashOutputFilepathOf
  rw [lastCh_pathJoin _ _ (by decide)]
  decide

theorem data_tp (o : GenerateIconFilesOptions) :
    (typeOutputFilepathOf o).data = o.outputDir.data ++ ("/types/icon-name.d.ts").data := by
  unfold typeOutputFilepathOf typesDirOf
  rw [data_pathJoin, data_pathJoin, List.append_assoc]
  congr 1

theorem data_ip (o : GenerateIconFilesOptions) :
    (iconsOutputFilepathOf o).data = o.outputDir.data ++ ("/icons.ts").data := by
  unfold iconsOutputFilepathOf
  rw [data_pathJoin]

theorem data_hp (o : GenerateIconFilesOptions) :
    (hashOutputFilepathOf o).data = o.outputDir.data ++ ("/hash.ts").data := by
  unfold hashOutputFilepathOf
  rw [data_pathJoin]

theorem pd_sp_tp (o : GenerateIconFilesOptions) :
    spriteFilepathOf o ≠ typeOutputFilepathOf o := by
  intro h
  have hl := congrArg lastCh h
  rw [lastCh_sp, lastCh_tp] at hl
  exact absurd hl (by decide)

theorem pd_sp_ip (o : GenerateIconFilesOptions) :
    spriteFilepathOf o ≠ iconsOutputFilepathOf o := by
  intro h
  have hl := congrArg lastCh h
  rw [lastCh_sp, lastCh_ip] at hl
  exact absurd hl (by decide)

theorem pd_sp_hp (o : GenerateIconFilesOptions) :
    spriteFilepathOf o ≠ hashOutputFilepathOf o := by
  intro h
  have hl := congrArg lastCh h
  rw [lastCh_sp, lastCh_hp] at hl
  exact absurd hl (by decide)

theorem pd_tp_ip (o : GenerateIconFilesOptions) :
    typeOutputFilepathOf o ≠ iconsOutputFilepathOf o := by
  intro h
  have hd := congrArg String.data h
  rw [data_tp, data_ip] at hd
  exact absurd (List.append_cancel_left hd) (by decide)

theorem pd_tp_hp (o : GenerateIconFilesOptions) :
    typeOutputFilepathOf o ≠ hashOutputFilepathOf o := by
  intro h
  have hd := congrArg String.data h
  rw [data_tp, data_hp] at hd
  exact absurd (List.append_cancel_left hd) (by decide)

theorem pd_ip_hp (o : GenerateIconFilesOptions) :
    iconsOutputFilepathOf o ≠ hashOutputFilepathOf o := by
  intro h
  have hd := congrArg String.data h
  rw [data_ip, data_hp] at hd
  exact absurd (List.append_cancel_left hd) (by decide)

/- The hash-suffixed reported sprite name. -/

theorem matchesFront_append (p x y : List Char) (h : matchesFront p x = true) :
    matchesFront p (x ++ y) = true := by
  induction p generalizing x with
  | nil => simp [matchesFront]
  | cons a as ih =>
    cases x with
    | nil => simp [matchesFront] at h
    | cons b bs =>
      simp [matchesFront] at h ⊢
      exact ⟨h.1, ih bs h.2⟩

theorem sprite_endsWith_svg (o : GenerateIconFilesOptions) :
    endsWithStr (spriteFilepathOf o) ".svg" = true := by
  unfold endsWithStr spriteFilepathOf
  rw [data_pathJoin, List.reverse_append]
  exact matchesFront_append _ _ _ (by decide)

theorem sprite_take (a : String) :
    (pathJoin a "sprite.svg").data.take ((pathJoin a "sprite.svg").data.length - 4) =
      a.data ++ ("/sprite").data := by
  rw [data_pathJoin, List.length_append]
  have h11 : ('/' :: ("sprite.svg").data).length = 11 := by decide
  rw [h11, List.take_append_eq_append_take]
  congr 1
  · apply List.take_of_length_le; omega
  · have h7 : a.data.length + 11 - 4 - a.data.length = 7 := by omega
    rw [h7]
    decide

theorem replaceSvgSuffix_sprite (o : GenerateIconFilesOptions) (hv : String) :
    (replaceSvgSuffix (spriteFilepathOf o) hv).data =
      (o.spriteOutputDir.data ++ ("/sprite.").data) ++ hv.data ++ (".svg").data := by
  have hend := sprite_endsWith_svg o
  unfold replaceSvgSuffix
  rw [if_pos hend]
  unfold spriteFilepathOf
  rw [String.data_append, String.data_append, String.data_append]
  rw [sprite_take]
  have hsp : (("/sprite") : String).data ++ (".").data = ("/sprite.").data := by decide
  rw [List.append_assoc o.spriteOutputDir.data, hsp]

theorem lastCh_suf (o : GenerateIconFilesOptions) (hv : String) :
    lastCh (replaceSvgSuffix (spriteFilepathOf o) hv) = some 'g' := by
  unfold lastCh
  rw [replaceSvgSuffix_sprite, List.reverse_append]
  rw [headq_append _ _ (by decide)]
  decide

theorem pd_suf_sp (o : GenerateIconFilesOptions) (hv : String) :
    replaceSvgSuffix (spriteFilepathOf o) hv ≠ spriteFilepathOf o := by
  intro h
  have hd := congrArg String.data h
  rw [replaceSvgSuffix_sprite] at hd
  rw [spriteFilepathOf, data_pathJoin] at hd
  have hl := congrArg List.length hd
  have e1 : (("/sprite.") : String).data.length = 8 := by decide
  have e2 : ((".svg") : String).data.length = 4 := by decide
  have e3 : ('/' :: (("sprite.svg") : String).data).length = 11 := by decide
  rw [List.length_append, List.length_append, List.length_append, List.length_append,
    e1, e2, e3] at hl
  omega

theorem pd_suf_tp (o : GenerateIconFilesOptions) (hv : String) :
    replaceSvgSuffix (spriteFilepathOf o) hv ≠ typeOutputFilepathOf o := by
  intro h
  have hl := congrArg lastCh h
  rw [lastCh_suf, lastCh_tp] at hl
  exact absurd hl (by decide)

theorem pd_suf_ip (o : GenerateIconFilesOptions) (hv : String) :
    replaceSvgSuffix (spriteFilepathOf o) hv ≠ iconsOutputFilepathOf o := by
  intro h
  have hl := congrArg lastCh h
  rw [lastCh_suf, lastCh_ip] at hl
  exact absurd hl (by decide)

theorem pd_suf_hp (o : GenerateIconFilesOptions) (hv : String) :
    replaceSvgSuffix (spriteFilepathOf o) hv ≠ hashOutputFilepathOf o := by
  intro h
  have hl := congrArg lastCh h
  rw [lastCh_suf, lastCh_hp] at hl
  exact absurd hl (by decide)

/- Content lemmas. -/

theorem replaceQuotes_no_quote (s : String) : '"' ∉ (replaceQuotes s).data := by
  show '"' ∉ s.data.map (fun c => if c = '"' then '\x27' else c)
  intro hmem
  simp only [List.mem_map] at hmem
  obtain ⟨a, _, ha⟩ := hmem
  by_cases hq : a = '"'
  · rw [if_pos hq] at ha; exact absurd ha (by decide)
  · rw [if_neg hq] at ha; exact hq ha

theorem typeContent_no_quote (o : GenerateIconFilesOptions) :
    '"' ∉ (typeOutputContentOf o).data := by
  unfold typeOutputContentOf
  intro hmem
  rw [String.data_append, String.data_append] at hmem
  rcases List.mem_append.mp hmem with hm | hm
  · rcases List.mem_append.mp hm with hm2 | hm2
    · exact absurd hm2 (by decide)
    · exact absurd hm2 (replaceQuotes_no_quote _)
  · exact absurd hm (by decide)

theorem hashFileContent_ne_empty (ext : Externals) (o : GenerateIconFilesOptions) :
    hashFileContentOf ext o ≠ "" := by
  intro h
  have hd := congrArg String.data h
  unfold hashFileContentOf at hd
  simp [String.data_append] at hd

theorem upToDateCheck_false_of_types_fresh (fs : FS) (o : GenerateIconFilesOptions)
    (hne : o.files ≠ [])
    (h2 : fsFind fs (typeOutputFilepathOf o) = some (.file (typeOutputContentOf o))) :
    upToDateCheck fs o = false := by
  have hct : currentTypesOf fs o = typeOutputContentOf o := by
    simp [currentTypesOf, readFileCatch, h2]
  have ht : typesUpToDateOf fs o = false := by
    apply typesUpToDate_false_of_no_quote fs o hne
    rw [hct]
    exact typeContent_no_quote o
  simp [upToDateCheck, ht]

/- A frame property of whole runs: a path distinct from every write target
is untouched. -/

theorem run_frame (ext : Externals) (o : GenerateIconFilesOptions) (fs fs' : FS)
    (r : RunReport) (q : String)
    (h : generateIconFiles ext o fs = .ok (r, fs'))
    (hq1 : q ≠ spriteFilepathOf o) (hq2 : q ≠ typeOutputFilepathOf o)
    (hq3 : q ≠ iconsOutputFilepathOf o)
    (hq4 : o.shouldHash = true → q ≠ hashOutputFilepathOf o) :
    fsFind fs' q = fsFind fs q := by
  unfold generateIconFiles at h
  split at h
  · have : fs = fs' := by simp_all
    rw [this]
  · obtain ⟨sc, fsA, tc, fsB, ic, fsC, hw1, hw2, hw3, hrest⟩ :=
      regenerate_inv ext o fs fs' r h
    rcases hrest with ⟨hsh, hc4, fsD, hw4, _, hfs⟩ | ⟨_, _, hfs⟩
    · rw [hfs]
      calc fsFind fsD q = fsFind fsC q := wic_frame _ _ _ _ _ _ _ _ q (hq4 hsh) hw4
        _ = fsFind fsB q := wic_frame _ _ _ _ _ _ _ _ q hq3 hw3
        _ = fsFind fsA q := wic_frame _ _ _ _ _ _ _ _ q hq2 hw2
        _ = fsFind fs q := wic_frame _ _ _ _ _ _ _ _ q hq1 hw1
    · rw [hfs]
      calc fsFind fsC q = fsFind fsB q := wic_frame _ _ _ _ _ _ _ _ q hq3 hw3
        _ = fsFind fsA q := wic_frame _ _ _ _ _ _ _ _ q hq2 hw2
        _ = fsFind fs q := wic_frame _ _ _ _ _ _ _ _ q hq1 hw1

/- Claim C4. -/

/-- C4: with force set and a non-empty files list, even when every artifact
on disk already equals its freshly computed content, the up-to-date short
circuit does not fire (the generated types text contains no double quote, so
the types staleness test fails) and all four writes (three without hashing)
report changed. -/
theorem C4_force_writes_all (ext : Externals) (o : GenerateIconFilesOptions) (fs : FS)
    (hforce : o.force = true) (hne : o.files ≠ [])
    (h1 : fsFind fs (spriteFilepathOf o) = some (.file (spriteOutputOf ext o)))
    (h2 : fsFind fs (typeOutputFilepathOf o) = some (.file (typeOutputContentOf o)))
    (h3 : fsFind fs (iconsOutputFilepathOf o) = some (.file (iconsOutputContentOf o)))
    (h4 : o.shouldHash = true →
      fsFind fs (hashOutputFilepathOf o) = some (.file (hashFileContentOf ext o))) :
    ∃ fs', generateIconFiles ext o fs =
      .ok (.generated true true true (if o.shouldHash then some true else none) true, fs') := by
  have hC : upToDateCheck fs o = false := upToDateCheck_false_of_types_fresh fs o hne h2
  have hW1 : writeIfChanged ext.md5Hex fs (spriteFilepathOf o) (spriteOutputOf ext o)
      (hashValueOf ext o) true = .ok (true, setFile fs (spriteFilepathOf o) (spriteOutputOf ext o)) :=
    wic_force _ _ _ _ _ (by rw [h1]; simp)
  have hfA : fsFind (setFile fs (spriteFilepathOf o) (spriteOutputOf ext o))
      (typeOutputFilepathOf o) = some (.file (typeOutputContentOf o)) := by
    rw [fsFind_setFile_ne _ _ _ _ (pd_sp_tp o)]; exact h2
  have hW2 : writeIfChanged ext.md5Hex (setFile fs (spriteFilepathOf o) (spriteOutputOf ext o))
      (typeOutputFilepathOf o) (typeOutputContentOf o) none true =
      .ok (true, setFile (setFile fs (spriteFilepathOf o) (spriteOutputOf ext o))
        (typeOutputFilepathOf o) (typeOutputContentOf o)) :=
    wic_force _ _ _ _ _ (by rw [hfA]; simp)
  have hfB : fsFind (setFile (setFile fs (spriteFilepathOf o) (spriteOutputOf ext o))
      (typeOutputFilepathOf o) (typeOutputContentOf o)) (iconsOutputFilepathOf o) =
      some (.file (iconsOutputContentOf o)) := by
    rw [fsFind_setFile_ne _ _ _ _ (pd_tp_ip o), fsFind_setFile_ne _ _ _ _ (pd_sp_ip o)]
    exact h3
  have hW3 : writeIfChanged ext.md5Hex (setFile (setFile fs (spriteFilepathOf o)
      (spriteOutputOf ext o)) (typeOutputFilepathOf o) (typeOutputContentOf o))
      (iconsOutputFilepathOf o) (iconsOutputContentOf o) none true =
      .ok (true, setFile (setFile (setFile fs (spriteFilepathOf o) (spriteOutputOf ext o))
        (typeOutputFilepathOf o) (typeOutputContentOf o)) (iconsOutputFilepathOf o)
        (iconsOutputContentOf o)) :=
    wic_force _ _ _ _ _ (by rw [hfB]; simp)
  by_cases hsh : o.shouldHash = true
  · have hfC : fsFind (setFile (setFile (setFile fs (spriteFilepathOf o) (spriteOutputOf ext o))
        (typeOutputFilepathOf o) (typeOutputContentOf o)) (iconsOutputFilepathOf o)
        (iconsOutputContentOf o)) (hashOutputFilepathOf o) =
        some (.file (hashFileContentOf ext o)) := by
      rw [fsFind_setFile_ne _ _ _ _ (pd_ip_hp o), fsFind_setFile_ne _ _ _ _ (pd_tp_hp o),
        fsFind_setFile_ne _ _ _ _ (pd_sp_hp o)]
      exact h4 hsh
    have hW4 := wic_force ext.md5Hex (setFile (setFile (setFile fs (spriteFilepathOf o)
        (spriteOutputOf ext o)) (typeOutputFilepathOf o) (typeOutputContentOf o))
        (iconsOutputFilepathOf o) (iconsOutputContentOf o)) (hashOutputFilepathOf o)
      (hashFileContentOf ext o) (none : Option String) (by rw [hfC]; simp)
    refine ⟨setFile (setFile (setFile (setFile fs (spriteFilepathOf o) (spriteOutputOf ext o))
      (typeOutputFilepathOf o) (typeOutputContentOf o)) (iconsOutputFilepathOf o)
      (iconsOutputContentOf o)) (hashOutputFilepathOf o) (hashFileContentOf ext o), ?_⟩
    simp [generateIconFiles, hC, regenerate, hforce, hW1, hW2, hW3, hW4, hsh]
  · have hsh2 : o.shouldHash = false := by simpa using hsh
    refine ⟨setFile (setFile (setFile fs (spriteFilepathOf o) (spriteOutputOf ext o))
      (typeOutputFilepathOf o) (typeOutputContentOf o)) (iconsOutputFilepathOf o)
      (iconsOutputContentOf o), ?_⟩
    simp [generateIconFiles, hC, regenerate, hforce, hW1, hW2, hW3, hsh2]

/-- C4 witness: a concrete forced run over an already-identical disk reports
every artifact changed. -/
theorem C4_force_writes_all_witness :
    c4o.force = true ∧
    (∃ fs', generateIconFiles wExt c4o c4fs =
      .ok (.generated true true true (if c4o.shouldHash then some true else none) true, fs')) :=
  ⟨rfl, C4_force_writes_all wExt c4o c4fs rfl (by decide) (by decide) (by decide) (by decide)
    (fun _ => by decide)⟩

/- Claim C6. -/

/-- C6: with hashing enabled the sprite is physically written only to
sprite.svg: the hash-suffixed name produced by the reporting code on line 90
is never a write target, so whatever the run does, the entry at that name is
exactly what it was before the run. -/
theorem C6_no_hashed_sprite_file (ext : Externals) (o : GenerateIconFilesOptions)
    (fs fs' : FS) (r : RunReport) (_hsh : o.shouldHash = true)
    (h : generateIconFiles ext o fs = .ok (r, fs')) :
    fsFind fs' (replaceSvgSuffix (spriteFilepathOf o) (ext.md5Hex (spriteOutputOf ext o))) =
    fsFind fs (replaceSvgSuffix (spriteFilepathOf o) (ext.md5Hex (spriteOutputOf ext o))) := by
  apply run_frame ext o fs fs' r _ h
  · exact pd_suf_sp o _
  · exact pd_suf_tp o _
  · exact pd_suf_ip o _
  · intro _; exact pd_suf_hp o _

/-- C6 witness: in a concrete hashing run the hash-suffixed sprite name is
absent before and after. -/
theorem C6_no_hashed_sprite_file_witness :
    c1o.shouldHash = true ∧
    fsFind c1fs4 (replaceSvgSuffix (spriteFilepathOf c1o) (wExt.md5Hex (spriteOutputOf wExt c1o))) =
    fsFind c1fs (replaceSvgSuffix (spriteFilepathOf c1o) (wExt.md5Hex (spriteOutputOf wExt c1o))) :=
  ⟨rfl, C6_no_hashed_sprite_file wExt c1o c1fs c1fs4
    (.generated false false false (some true) false) rfl rfl⟩

/- Claim C7. -/

theorem wic_md5_irrelevant (m₁ m₂ : String → String) (fs : FS) (p c : String) (f : Bool) :
    writeIfChanged m₁ fs p c none f = writeIfChanged m₂ fs p c none f := by
  unfold writeIfChanged
  cases readForCompare fs p <;> rfl

theorem regenerate_md5_irrelevant (ext : Externals) (m : String → String)
    (o : GenerateIconFilesOptions) (fs : FS) (hsh : o.shouldHash = false) :
    regenerate { ext with md5Hex := m } o fs = regenerate ext o fs := by
  unfold regenerate
  have hso : spriteOutputOf { ext with md5Hex := m } o = spriteOutputOf ext o := rfl
  have hhv : hashValueOf { ext with md5Hex := m } o = none := by simp [hashValueOf, hsh]
  have hhv2 : hashValueOf ext o = none := by simp [hashValueOf, hsh]
  have hm : ({ ext with md5Hex := m } : Externals).md5Hex = m := rfl
  rw [hso, hhv, hhv2, hm]
  rw [wic_md5_irrelevant m ext.md5Hex fs (spriteFilepathOf o) (spriteOutputOf ext o) o.force]
  cases hx1 : writeIfChanged ext.md5Hex fs (spriteFilepathOf o) (spriteOutputOf ext o)
      none o.force with
  | error e => rfl
  | ok pr1 =>
    obtain ⟨sc, fsA⟩ := pr1
    simp only
    rw [wic_md5_irrelevant m ext.md5Hex fsA (typeOutputFilepathOf o) (typeOutputContentOf o)
      o.force]
    cases hx2 : writeIfChanged ext.md5Hex fsA (typeOutputFilepathOf o) (typeOutputContentOf o)
        none o.force with
    | error e => rfl
    | ok pr2 =>
      obtain ⟨tc, fsB⟩ := pr2
      simp only
      rw [wic_md5_irrelevant m ext.md5Hex fsB (iconsOutputFilepathOf o) (iconsOutputContentOf o)
        o.force]
      cases hx3 : writeIfChanged ext.md5Hex fsB (iconsOutputFilepathOf o)
          (iconsOutputContentOf o) none o.force with
      | error e => rfl
      | ok pr3 =>
        obtain ⟨ic, fsC⟩ := pr3
        simp only
        rw [hsh]
        rfl

theorem gen_md5_irrelevant (ext : Externals) (m : String → String)
    (o : GenerateIconFilesOptions) (fs : FS) (hsh : o.shouldHash = false) :
    generateIconFiles { ext with md5Hex := m } o fs = generateIconFiles ext o fs := by
  unfold generateIconFiles
  by_cases huc : upToDateCheck fs o
  · rw [if_pos huc, if_pos huc]
  · rw [if_neg huc, if_neg huc]
    exact regenerate_md5_irrelevant ext m o fs hsh

/-- C7: in every run that reaches the regeneration path, the hash module at
hash.ts exists afterwards with a single exported constant holding the digest
of the final (possibly optimized) sprite content exactly when shouldHash is
true; with shouldHash false the hash path is untouched and the run does not
depend on the digest function at all, so no hash is computed. -/
theorem C7_hash_module_iff (ext : Externals) (o : GenerateIconFilesOptions)
    (fs fs' : FS) (r : RunReport)
    (hreg : upToDateCheck fs o = false)
    (h : generateIconFiles ext o fs = .ok (r, fs')) :
    (o.shouldHash = true →
      fsFind fs' (hashOutputFilepathOf o) =
        some (.file ("export const hash = " ++ sqStr ++
          ext.md5Hex (spriteOutputOf ext o) ++ sqStr ++ ";\n"))) ∧
    (o.shouldHash = false →
      fsFind fs' (hashOutputFilepathOf o) = fsFind fs (hashOutputFilepathOf o) ∧
      ∀ m, generateIconFiles { ext with md5Hex := m } o fs = generateIconFiles ext o fs) := by
  constructor
  · intro hsh
    rw [generateIconFiles, if_neg (by simp [hreg])] at h
    obtain ⟨sc, fsA, tc, fsB, ic, fsC, hw1, hw2, hw3, hrest⟩ :=
      regenerate_inv ext o fs fs' r h
    rcases hrest with ⟨_, hc4, fsD, hw4, _, hfs⟩ | ⟨hsh2, _, _⟩
    · rw [hfs]
      have hpost := wic_post_raw ext.md5Hex fsC (hashOutputFilepathOf o)
        (hashFileContentOf ext o) o.force hc4 fsD (hashFileContent_ne_empty ext o) hw4
      rw [hpost]
      have : hashFileContentOf ext o =
          "export const hash = " ++ sqStr ++ ext.md5Hex (spriteOutputOf ext o) ++ sqStr ++ ";\n" := by
        unfold hashFileContentOf hashValueOf
        rw [hsh]
        simp
      rw [this]
    · rw [hsh2] at hsh; exact absurd hsh (by simp)
  · intro hsh
    refine ⟨?_, fun m => gen_md5_irrelevant ext m o fs hsh⟩
    apply run_frame ext o fs fs' r _ h
    · exact (pd_sp_hp o).symm
    · exact (pd_tp_hp o).symm
    · exact (pd_ip_hp o).symm
    · intro hsh2; rw [hsh] at hsh2; exact absurd hsh2 (by simp)

/-- C7 witness: the concrete hashing run leaves a hash module holding the
digest of the final sprite content, instantiating the regeneration-path
hypothesis. -/
theorem C7_hash_module_iff_witness :
    upToDateCheck c1fs c1o = false ∧
    ((c1o.shouldHash = true →
      fsFind c1fs4 (hashOutputFilepathOf c1o) =
        some (.file ("export const hash = " ++ sqStr ++
          wExt.md5Hex (spriteOutputOf wExt c1o) ++ sqStr ++ ";\n"))) ∧
    (c1o.shouldHash = false →
      fsFind c1fs4 (hashOutputFilepathOf c1o) = fsFind c1fs (hashOutputFilepathOf c1o) ∧
      ∀ m, generateIconFiles { wExt with md5Hex := m } c1o c1fs =
        generateIconFiles wExt c1o c1fs)) :=
  ⟨by decide, C7_hash_module_iff wExt c1o c1fs c1fs4
    (.generated false false false (some true) false) (by decide) rfl⟩

/- Claim C3. -/

/-- C3 counterexample: with force on, a second run with identical options
and unchanged sources (the filesystem left by the first run) rewrites every
artifact with changed reported for each, and reports changed overall, so the
claim quantified over every options value fails. -/
theorem C3_counterexample :
    c3o.files ≠ [] ∧
    runReport (generateIconFiles wExt c3o c3fs1) =
      some (.generated true true true (some true) true) := by
  refine ⟨by decide, by decide⟩

/-- C3 (amended): for options with force off and a non-empty files list,
a second run on the filesystem left by any completed run performs zero
writes: it either short-circuits or every change-detected write reports
changed false, the hash flag included, and the run reports up to date. -/
theorem C3_idempotent_second_run (ext : Externals) (o : GenerateIconFilesOptions)
    (fs fs1 : FS) (r1 : RunReport)
    (hforce : o.force = false) (_hne : o.files ≠ [])
    (h1 : generateIconFiles ext o fs = .ok (r1, fs1)) :
    ∃ r2, generateIconFiles ext o fs1 = .ok (r2, fs1) ∧ noWriteReport r2 = true := by
  unfold generateIconFiles at h1
  split at h1
  case isTrue huc =>
    have hfs : fs1 = fs := by simp_all
    subst hfs
    exact ⟨.upToDate, by simp [generateIconFiles, huc], rfl⟩
  case isFalse huc =>
    obtain ⟨sc, fsA, tc, fsB, ic, fsC, hw1, hw2, hw3, hrest⟩ :=
      regenerate_inv ext o fs fs1 r1 h1
    rw [hforce] at hw1 hw2 hw3
    by_cases huc2 : upToDateCheck fs1 o = true
    · exact ⟨.upToDate, by simp [generateIconFiles, huc2], rfl⟩
    · have huc2' : upToDateCheck fs1 o = false := by simpa using huc2
      rcases hrest with ⟨hsh, hc4, fsD, hw4, _, hfs⟩ | ⟨hsh, _, hfs⟩
      · rw [hforce] at hw4
        rw [hfs] at huc2' ⊢
        have eS : fsFind fsD (spriteFilepathOf o) = fsFind fsA (spriteFilepathOf o) :=
          (wic_frame _ _ _ _ _ _ _ _ (spriteFilepathOf o) (pd_sp_hp o) hw4).trans
            ((wic_frame _ _ _ _ _ _ _ _ (spriteFilepathOf o) (pd_sp_ip o) hw3).trans
              (wic_frame _ _ _ _ _ _ _ _ (spriteFilepathOf o) (pd_sp_tp o) hw2))
        have eT : fsFind fsD (typeOutputFilepathOf o) = fsFind fsB (typeOutputFilepathOf o) :=
          (wic_frame _ _ _ _ _ _ _ _ (typeOutputFilepathOf o) (pd_tp_hp o) hw4).trans
            (wic_frame _ _ _ _ _ _ _ _ (typeOutputFilepathOf o) (pd_tp_ip o) hw3)
        have eI : fsFind fsD (iconsOutputFilepathOf o) = fsFind fsC (iconsOutputFilepathOf o) :=
          wic_frame _ _ _ _ _ _ _ _ (iconsOutputFilepathOf o) (pd_ip_hp o) hw4
        have hhv : hashValueOf ext o = some (ext.md5Hex (spriteOutputOf ext o)) := by
          simp [hashValueOf, hsh]
        rw [hhv] at hw1
        have W1 := wic_stab_hash ext.md5Hex fs (spriteFilepathOf o) (spriteOutputOf ext o)
          sc fsA fsD hw1 eS
        have W2 := wic_stab_raw ext.md5Hex fsA (typeOutputFilepathOf o) (typeOutputContentOf o)
          tc fsB fsD hw2 eT
        have W3 := wic_stab_raw ext.md5Hex fsB (iconsOutputFilepathOf o)
          (iconsOutputContentOf o) ic fsC fsD hw3 eI
        have W4 := wic_stab_raw ext.md5Hex fsC (hashOutputFilepathOf o)
          (hashFileContentOf ext o) hc4 fsD fsD hw4 rfl
        refine ⟨.generated false false false (some false) false, ?_, rfl⟩
        simp [generateIconFiles, huc2', regenerate, hforce, hhv, W1, W2, W3, W4, hsh]
      · rw [hfs] at huc2' ⊢
        have eS : fsFind fsC (spriteFilepathOf o) = fsFind fsA (spriteFilepathOf o) :=
          (wic_frame _ _ _ _ _ _ _ _ (spriteFilepathOf o) (pd_sp_ip o) hw3).trans
            (wic_frame _ _ _ _ _ _ _ _ (spriteFilepathOf o) (pd_sp_tp o) hw2)
        have eT : fsFind fsC (typeOutputFilepathOf o) = fsFind fsB (typeOutputFilepathOf o) :=
          wic_frame _ _ _ _ _ _ _ _ (typeOutputFilepathOf o) (pd_tp_ip o) hw3
        have hhv : hashValueOf ext o = none := by simp [hashValueOf, hsh]
        rw [hhv] at hw1
        have W1 := wic_stab_raw ext.md5Hex fs (spriteFilepathOf o) (spriteOutputOf ext o)
          sc fsA fsC hw1 eS
        have W2 := wic_stab_raw ext.md5Hex fsA (typeOutputFilepathOf o) (typeOutputContentOf o)
          tc fsB fsC hw2 eT
        have W3 := wic_stab_raw ext.md5Hex fsB (iconsOutputFilepathOf o)
          (iconsOutputContentOf o) ic fsC fsC hw3 rfl
        refine ⟨.generated false false false none false, ?_, rfl⟩
        simp [generateIconFiles, huc2', regenerate, hforce, hhv, W1, W2, W3, hsh]

/-- C3 witness: after a concrete unforced run from an empty disk, the second
identical run performs zero writes and reports up to date. -/
theorem C3_idempotent_second_run_witness :
    c3oNF.force = false ∧
    (∃ r2, generateIconFiles wExt c3oNF c3nfFs1 = .ok (r2, c3nfFs1) ∧
      noWriteReport r2 = true) :=
  ⟨rfl, C3_idempotent_second_run wExt c3oNF [] c3nfFs1 c3nfR1 rfl (by decide) rfl⟩

/- Claim C5: the generated type union and identifier array list the quoted
identifiers in input order, and the order can be read back out of the
generated texts line by line. -/

theorem notMemAppend {α : Type} {c : α} {a b : List α} (ha : c ∉ a) (hb : c ∉ b) :
    c ∉ a ++ b := by
  intro hm
  rcases List.mem_append.mp hm with h | h
  · exact ha h
  · exact hb h

theorem splitNlAux_no_nl : ∀ (xs acc : List Char), '\n' ∉ xs →
    splitNlAux acc xs = [acc.reverse ++ xs] := by
  intro xs
  induction xs with
  | nil => intro acc _; simp [splitNlAux]
  | cons c t ih =>
    intro acc h
    have hc : ¬(c = '\n') := by intro hh; exact h (by simp [hh])
    simp only [splitNlAux, if_neg hc]
    rw [ih (c :: acc) (by intro hm; exact h (by simp [hm]))]
    simp

theorem splitNlAux_break : ∀ (p : List Char) (acc rest : List Char), '\n' ∉ p →
    splitNlAux acc (p ++ '\n' :: rest) = (acc.reverse ++ p) :: splitNlAux [] rest := by
  intro p
  induction p with
  | nil => intro acc rest _; simp [splitNlAux]
  | cons c t ih =>
    intro acc rest h
    have hc : ¬(c = '\n') := by intro hh; exact h (by simp [hh])
    simp only [List.cons_append, splitNlAux, if_neg hc, List.append_eq]
    rw [ih (c :: acc) rest (by intro hm; exact h (by simp [hm]))]
    simp

theorem dropWhile_front {P : Char → Bool} : ∀ (ind : List Char) (x : Char) (rest : List Char),
    (∀ c ∈ ind, P c = true) → P x = false →
    (ind ++ x :: rest).dropWhile P = x :: rest := by
  intro ind
  induction ind with
  | nil =>
    intro x rest _ hx
    simp [List.dropWhile_cons, hx]
  | cons a t ih =>
    intro x rest hall hx
    simp only [List.cons_append, List.dropWhile_cons, hall a (by simp), if_pos]
    exact ih x rest (fun c hc => hall c (by simp [hc])) hx

theorem hexDigit_ne_nl (k : Nat) : hexDigit k ≠ '\n' := by
  unfold hexDigit
  rcases Nat.lt_or_ge k 16 with h | h
  · interval_cases k <;> decide
  · rw [List.getD_eq_default]
    · decide
    · have : (("0123456789abcdef").data).length = 16 := by decide
      omega

theorem escapeChar_no_nl (c : Char) : '\n' ∉ escapeChar c := by
  unfold escapeChar
  split_ifs with h1 h2 h3 h4 h5 h6 h7 h8
  · decide
  · decide
  · decide
  · decide
  · decide
  · decide
  · decide
  · intro hm
    simp only [List.mem_cons] at hm
    rcases hm with h | h | h | h | h | h | h
    · exact absurd h (by decide)
    · exact absurd h (by decide)
    · exact absurd h (by decide)
    · exact absurd h (by decide)
    · exact hexDigit_ne_nl _ h.symm
    · exact hexDigit_ne_nl _ h.symm
    · simp at h
  · intro hm
    simp only [List.mem_singleton] at hm
    exact h3 hm.symm

theorem escapeList_no_nl : ∀ l : List Char, '\n' ∉ escapeList l := by
  intro l
  induction l with
  | nil => simp [escapeList]
  | cons c cs ih =>
    show '\n' ∉ escapeChar c ++ escapeList cs
    exact notMemAppend (escapeChar_no_nl c) ih

theorem rq_map_no_nl {l : List Char} (h : '\n' ∉ l) :
    '\n' ∉ l.map (fun c => if c = '"' then '\x27' else c) := by
  intro hm
  simp only [List.mem_map] at hm
  obtain ⟨a, ha, hae⟩ := hm
  by_cases hq : a = '"'
  · rw [if_pos hq] at hae; exact absurd hae (by decide)
  · rw [if_neg hq] at hae; exact h (hae ▸ ha)

theorem js_shape (n : String) :
    (jsonStringify n).data = '"' :: (escapeList n.data ++ ['"']) := rfl

theorem rq_js_shape (n : String) :
    (replaceQuotes (jsonStringify n)).data =
      '\x27' :: ((escapeList n.data).map (fun c => if c = '"' then '\x27' else c) ++ ['\x27']) := by
  show (List.map (fun c => if c = '"' then '\x27' else c) (jsonStringify n).data) =
    '\x27' :: ((escapeList n.data).map (fun c => if c = '"' then '\x27' else c) ++ ['\x27'])
  rw [js_shape]
  simp

theorem rq_js_no_nl (n : String) : '\n' ∉ (replaceQuotes (jsonStringify n)).data := by
  rw [rq_js_shape]
  intro hm
  simp only [List.mem_cons] at hm
  rcases hm with h | h
  · exact absurd h (by decide)
  · rcases List.mem_append.mp h with h2 | h2
    · exact rq_map_no_nl (escapeList_no_nl n.data) h2
    · simp at h2

theorem js_no_nl (n : String) : '\n' ∉ (jsonStringify n).data := by
  rw [js_shape]
  intro hm
  simp only [List.mem_cons] at hm
  rcases hm with h | h
  · exact absurd h (by decide)
  · rcases List.mem_append.mp h with h2 | h2
    · exact escapeList_no_nl n.data h2
    · simp at h2

theorem joinWith_data (sep : String) : ∀ l : List String,
    (joinWith sep l).data = joinData sep.data (l.map String.data) := by
  intro l
  induction l with
  | nil => rfl
  | cons x xs ih =>
    cases xs with
    | nil => rfl
    | cons y ys =>
      show (x ++ sep ++ joinWith sep (y :: ys)).data = _
      rw [String.data_append, String.data_append, ih]
      rfl

theorem joinData_map (f : Char → Char) (sepd : List Char) : ∀ L : List (List Char),
    (joinData sepd L).map f = joinData (sepd.map f) (L.map (List.map f)) := by
  intro L
  induction L with
  | nil => rfl
  | cons r rest ih =>
    cases rest with
    | nil => rfl
    | cons r2 rest2 =>
      show (r ++ sepd ++ joinData sepd (r2 :: rest2)).map f = _
      rw [List.map_append, List.map_append, ih]
      rfl

theorem splitNlAux_types_body (z : List Char) (hz : '\n' ∉ z) :
    ∀ rs : List (List Char), rs ≠ [] → (∀ r ∈ rs, '\n' ∉ r) →
    ∀ ind : List Char, '\n' ∉ ind →
    splitNlAux [] (ind ++ joinData ['\n', '\t', '|', ' '] rs ++ (';' :: '\n' :: z)) =
      decorateT ind rs ++ [z] := by
  intro rs
  induction rs with
  | nil => intro h; exact absurd rfl h
  | cons r rest ih =>
    intro _ hrs ind hind
    cases rest with
    | nil =>
      have hp : '\n' ∉ ind ++ r ++ [';'] :=
        notMemAppend (notMemAppend hind (hrs r (by simp))) (by decide)
      have hsplit : ind ++ joinData ['\n', '\t', '|', ' '] [r] ++ (';' :: '\n' :: z) =
          (ind ++ r ++ [';']) ++ '\n' :: z := by
        show ind ++ r ++ (';' :: '\n' :: z) = (ind ++ r ++ [';']) ++ '\n' :: z
        simp
      rw [hsplit, splitNlAux_break _ _ _ hp, splitNlAux_no_nl z [] hz]
      simp [decorateT]
    | cons r2 rest2 =>
      have hp : '\n' ∉ ind ++ r := notMemAppend hind (hrs r (by simp))
      have hsplit : ind ++ joinData ['\n', '\t', '|', ' '] (r :: r2 :: rest2) ++
          (';' :: '\n' :: z) =
          (ind ++ r) ++ '\n' :: (['\t', '|', ' '] ++
            joinData ['\n', '\t', '|', ' '] (r2 :: rest2) ++ (';' :: '\n' :: z)) := by
        show ind ++ (r ++ ['\n', '\t', '|', ' '] ++ joinData ['\n', '\t', '|', ' '] (r2 :: rest2))
            ++ (';' :: '\n' :: z) = _
        simp
      rw [hsplit, splitNlAux_break _ _ _ hp]
      rw [ih (by simp) (fun x hx => hrs x (by simp [hx])) ['\t', '|', ' '] (by decide)]
      simp [decorateT]

theorem splitNlAux_icons_body (w : List Char) :
    ∀ rs : List (List Char), rs ≠ [] → (∀ r ∈ rs, '\n' ∉ r) →
    ∀ ind : List Char, '\n' ∉ ind →
    splitNlAux [] (ind ++ joinData [',', '\n', '\t'] rs ++ (',' :: '\n' :: w)) =
      decorateI ind rs ++ splitNlAux [] w := by
  intro rs
  induction rs with
  | nil => intro h; exact absurd rfl h
  | cons r rest ih =>
    intro _ hrs ind hind
    cases rest with
    | nil =>
      have hp : '\n' ∉ ind ++ r ++ [','] :=
        notMemAppend (notMemAppend hind (hrs r (by simp))) (by decide)
      have hsplit : ind ++ joinData [',', '\n', '\t'] [r] ++ (',' :: '\n' :: w) =
          (ind ++ r ++ [',']) ++ '\n' :: w := by
        show ind ++ r ++ (',' :: '\n' :: w) = (ind ++ r ++ [',']) ++ '\n' :: w
        simp
      rw [hsplit, splitNlAux_break _ _ _ hp]
      simp [decorateI]
    | cons r2 rest2 =>
      have hp : '\n' ∉ ind ++ r ++ [','] :=
        notMemAppend (notMemAppend hind (hrs r (by simp))) (by decide)
      have hsplit : ind ++ joinData [',', '\n', '\t'] (r :: r2 :: rest2) ++ (',' :: '\n' :: w) =
          (ind ++ r ++ [',']) ++ '\n' :: (['\t'] ++
            joinData [',', '\n', '\t'] (r2 :: rest2) ++ (',' :: '\n' :: w)) := by
        show ind ++ (r ++ [',', '\n', '\t'] ++ joinData [',', '\n', '\t'] (r2 :: rest2))
            ++ (',' :: '\n' :: w) = _
        simp
      rw [hsplit, splitNlAux_break _ _ _ hp]
      rw [ih (by simp) (fun x hx => hrs x (by simp [hx])) ['\t'] (by decide)]
      simp [decorateI]

theorem stripTypeLine_clean (ind m : List Char) (hind : ∀ c ∈ ind, stripSetT c = true) :
    stripTypeLine (ind ++ ('\x27' :: m ++ ['\x27']) ++ [';']) = '\x27' :: m ++ ['\x27'] := by
  unfold stripTypeLine
  have h1 : (ind ++ ('\x27' :: m ++ ['\x27']) ++ [';']).dropWhile stripSetT
      = '\x27' :: (m ++ ['\x27'] ++ [';']) := by
    rw [show ind ++ ('\x27' :: m ++ ['\x27']) ++ [';'] =
      ind ++ '\x27' :: (m ++ ['\x27'] ++ [';']) from by simp]
    exact dropWhile_front ind '\x27' _ hind (by decide)
  rw [h1]
  rw [show ('\x27' :: (m ++ ['\x27'] ++ [';'])) = ('\x27' :: m ++ ['\x27']) ++ [';'] from by simp]
  rw [List.reverse_append]
  rw [show (([';'] : List Char)).reverse = [';'] from rfl, List.singleton_append]
  rw [List.dropWhile_cons, if_pos (by decide)]
  have h4 : ('\x27' :: m ++ ['\x27']).reverse = '\x27' :: (m.reverse ++ ['\x27']) := by simp
  rw [h4, List.dropWhile_cons, if_neg (by decide), ← h4, List.reverse_reverse]

theorem stripTypeLine_clean_mid (ind m : List Char) (hind : ∀ c ∈ ind, stripSetT c = true) :
    stripTypeLine (ind ++ ('\x27' :: m ++ ['\x27'])) = '\x27' :: m ++ ['\x27'] := by
  unfold stripTypeLine
  have h1 : (ind ++ ('\x27' :: m ++ ['\x27'])).dropWhile stripSetT = '\x27' :: (m ++ ['\x27']) := by
    rw [show ind ++ ('\x27' :: m ++ ['\x27']) = ind ++ '\x27' :: (m ++ ['\x27']) from by simp]
    exact dropWhile_front ind '\x27' _ hind (by decide)
  rw [h1]
  have h4 : ('\x27' :: (m ++ ['\x27'])).reverse = '\x27' :: (m.reverse ++ ['\x27']) := by simp
  rw [h4, List.dropWhile_cons, if_neg (by decide), ← h4, List.reverse_reverse]
  simp

theorem stripIconLine_clean (ind m : List Char) (hind : ∀ c ∈ ind, stripSetI c = true) :
    stripIconLine (ind ++ ('"' :: m ++ ['"']) ++ [',']) = '"' :: m ++ ['"'] := by
  unfold stripIconLine
  have h1 : (ind ++ ('"' :: m ++ ['"']) ++ [',']).dropWhile stripSetI
      = '"' :: (m ++ ['"'] ++ [',']) := by
    rw [show ind ++ ('"' :: m ++ ['"']) ++ [','] =
      ind ++ '"' :: (m ++ ['"'] ++ [',']) from by simp]
    exact dropWhile_front ind '"' _ hind (by decide)
  rw [h1]
  rw [show ('"' :: (m ++ ['"'] ++ [','])) = ('"' :: m ++ ['"']) ++ [','] from by simp]
  rw [List.reverse_append]
  rw [show (([','] : List Char)).reverse = [','] from rfl, List.singleton_append]
  rw [List.dropWhile_cons, if_pos (by decide)]
  have h4 : ('"' :: m ++ ['"']).reverse = '"' :: (m.reverse ++ ['"']) := by simp
  rw [h4, List.dropWhile_cons, if_neg (by decide), ← h4, List.reverse_reverse]

theorem decorateT_strip : ∀ (rs : List (List Char)) (ind : List Char),
    (∀ r ∈ rs, ∃ m, r = '\x27' :: m ++ ['\x27']) →
    (∀ c ∈ ind, stripSetT c = true) →
    (decorateT ind rs).map stripTypeLine = rs := by
  intro rs
  induction rs with
  | nil => intro ind _ _; rfl
  | cons r rest ih =>
    intro ind hsh hind
    cases rest with
    | nil =>
      obtain ⟨m, hm⟩ := hsh r (by simp)
      subst hm
      show [stripTypeLine (ind ++ ('\x27' :: m ++ ['\x27']) ++ [';'])] = _
      rw [stripTypeLine_clean ind m hind]
    | cons r2 rest2 =>
      obtain ⟨m, hm⟩ := hsh r (by simp)
      subst hm
      show stripTypeLine (ind ++ ('\x27' :: m ++ ['\x27'])) ::
        (decorateT ['\t', '|', ' '] (r2 :: rest2)).map stripTypeLine = _
      rw [stripTypeLine_clean_mid ind m hind,
        ih ['\t', '|', ' '] (fun x hx => hsh x (by simp [hx])) (by decide)]

theorem decorateI_strip : ∀ (rs : List (List Char)) (ind : List Char),
    (∀ r ∈ rs, ∃ m, r = '"' :: m ++ ['"']) →
    (∀ c ∈ ind, stripSetI c = true) →
    (decorateI ind rs).map stripIconLine = rs := by
  intro rs
  induction rs with
  | nil => intro ind _ _; rfl
  | cons r rest ih =>
    intro ind hsh hind
    obtain ⟨m, hm⟩ := hsh r (by simp)
    subst hm
    show stripIconLine (ind ++ ('"' :: m ++ ['"']) ++ [',']) ::
      (decorateI ['\t'] rest).map stripIconLine = _
    rw [stripIconLine_clean ind m hind,
      ih ['\t'] (fun x hx => hsh x (by simp [hx])) (by decide)]

theorem map_mk_data : ∀ l : List String, l.map (fun q => (⟨q.data⟩ : String)) = l := by
  intro l
  induction l with
  | nil => rfl
  | cons a t ih =>
    show (⟨a.data⟩ : String) :: t.map _ = a :: t
    rw [ih]

theorem extract_types (o : GenerateIconFilesOptions) (hne : o.files ≠ []) :
    extractTypeLiterals (typeOutputContentOf o) =
      (stringifiedIconNamesOf o).map replaceQuotes := by
  have hqs : stringifiedIconNamesOf o ≠ [] := by
    simp [stringifiedIconNamesOf, iconNamesOf, hne]
  have h1 : (replaceQuotes (joinWith "\n\t| " (stringifiedIconNamesOf o))).data =
      joinData ['\n', '\t', '|', ' ']
        (((stringifiedIconNamesOf o).map replaceQuotes).map String.data) := by
    show (List.map (fun c => if c = '"' then '\x27' else c)
      (joinWith "\n\t| " (stringifiedIconNamesOf o)).data) = _
    rw [joinWith_data, joinData_map]
    have hsep : (("\n\t| ").data).map (fun c => if c = '"' then '\x27' else c) =
        ['\n', '\t', '|', ' '] := by decide
    rw [hsep]
    congr 1
    rw [List.map_map, List.map_map]
    rfl
  have hrsne : (((stringifiedIconNamesOf o).map replaceQuotes).map String.data) ≠ [] := by
    simp [hqs]
  have hrsnl : ∀ r ∈ ((stringifiedIconNamesOf o).map replaceQuotes).map String.data,
      '\n' ∉ r := by
    intro r hr
    rw [List.mem_map] at hr
    obtain ⟨q, hq, rfl⟩ := hr
    rw [List.mem_map] at hq
    obtain ⟨q2, hq2, rfl⟩ := hq
    rw [stringifiedIconNamesOf, List.mem_map] at hq2
    obtain ⟨n, _, rfl⟩ := hq2
    exact rq_js_no_nl n
  have hrshape : ∀ r ∈ ((stringifiedIconNamesOf o).map replaceQuotes).map String.data,
      ∃ m, r = '\x27' :: m ++ ['\x27'] := by
    intro r hr
    rw [List.mem_map] at hr
    obtain ⟨q, hq, rfl⟩ := hr
    rw [List.mem_map] at hq
    obtain ⟨q2, hq2, rfl⟩ := hq
    rw [stringifiedIconNamesOf, List.mem_map] at hq2
    obtain ⟨n, _, rfl⟩ := hq2
    exact ⟨_, rq_js_shape n⟩
  have hdata : (typeOutputContentOf o).data =
      ("export type IconName =").data ++ '\n' ::
        (("    \t| ").data ++ joinData ['\n', '\t', '|', ' ']
          (((stringifiedIconNamesOf o).map replaceQuotes).map String.data) ++
          (';' :: '\n' :: ("    ").data)) := by
    unfold typeOutputContentOf
    rw [String.data_append, String.data_append, h1]
    have hH : ("export type IconName =\n    \t| ").data =
        ("export type IconName =").data ++ '\n' :: ("    \t| ").data := by decide
    have hF : ((";\n    ") : String).data = ';' :: '\n' :: ("    ").data := by decide
    rw [hH, hF]
    simp
  unfold extractTypeLiterals splitNl
  rw [hdata]
  rw [splitNlAux_break (("export type IconName =").data) [] _ (by decide)]
  rw [splitNlAux_types_body (("    ").data) (by decide) _ hrsne hrsnl
    (("    \t| ").data) (by decide)]
  simp only [List.reverse_nil, List.nil_append, List.drop_succ_cons, List.drop_zero]
  rw [List.dropLast_concat]
  rw [show (fun l => (⟨stripTypeLine l⟩ : String)) =
    (fun l => (⟨l⟩ : String)) ∘ stripTypeLine from rfl]
  rw [← List.map_map]
  rw [decorateT_strip _ _ hrshape (by decide)]
  rw [List.map_map]
  exact map_mk_data _

theorem extract_icons (o : GenerateIconFilesOptions) (hne : o.files ≠ []) :
    extractIconLiterals (iconsOutputContentOf o) = stringifiedIconNamesOf o := by
  have hqs : stringifiedIconNamesOf o ≠ [] := by
    simp [stringifiedIconNamesOf, iconNamesOf, hne]
  have hrsne : ((stringifiedIconNamesOf o).map String.data) ≠ [] := by
    simp [hqs]
  have hrsnl : ∀ r ∈ (stringifiedIconNamesOf o).map String.data, '\n' ∉ r := by
    intro r hr
    rw [List.mem_map] at hr
    obtain ⟨q, hq, rfl⟩ := hr
    rw [stringifiedIconNamesOf, List.mem_map] at hq
    obtain ⟨n, _, rfl⟩ := hq
    exact js_no_nl n
  have hrshape : ∀ r ∈ (stringifiedIconNamesOf o).map String.data,
      ∃ m, r = '"' :: m ++ ['"'] := by
    intro r hr
    rw [List.mem_map] at hr
    obtain ⟨q, hq, rfl⟩ := hr
    rw [stringifiedIconNamesOf, List.mem_map] at hq
    obtain ⟨n, _, rfl⟩ := hq
    exact ⟨_, js_shape n⟩
  have hdata : (iconsOutputContentOf o).data =
      (("import { IconName } from " ++ sqStr ++ "./types/icon-name" ++ sqStr ++ ";" :
        String)).data ++ '\n' :: (("  ").data ++ '\n' ::
        (("  export const icons = [").data ++ '\n' ::
          (("  \t").data ++ joinData [',', '\n', '\t']
            ((stringifiedIconNamesOf o).map String.data) ++
            (',' :: '\n' :: (("  ] satisfies Array<IconName>;\n  ").data))))) := by
    unfold iconsOutputContentOf
    rw [String.data_append, String.data_append, String.data_append, String.data_append,
      String.data_append, String.data_append]
    rw [joinWith_data]
    have hsep : ((",\n\t") : String).data = [',', '\n', '\t'] := by decide
    rw [hsep]
    have hP : (((("import { IconName } from ").data ++ sqStr.data) ++
        (("./types/icon-name") : String).data) ++ sqStr.data) ++
        ((";\n  \n  export const icons = [\n  \t") : String).data =
        (("import { IconName } from " ++ sqStr ++ "./types/icon-name" ++ sqStr ++ ";" :
          String)).data ++ '\n' :: (("  ").data ++ '\n' ::
          (("  export const icons = [").data ++ '\n' :: ("  \t").data)) := by decide
    have hD : (((",\n  ] satisfies Array<IconName>;\n  ") : String)).data =
        ',' :: '\n' :: (("  ] satisfies Array<IconName>;\n  ").data) := by decide
    rw [hP, hD]
    simp
  unfold extractIconLiterals splitNl
  rw [hdata]
  rw [splitNlAux_break ((("import { IconName } from " ++ sqStr ++ "./types/icon-name" ++
    sqStr ++ ";" : String)).data) [] _ (by decide)]
  rw [splitNlAux_break (("  ").data) [] _ (by decide)]
  rw [splitNlAux_break (("  export const icons = [").data) [] _ (by decide)]
  rw [splitNlAux_icons_body (("  ] satisfies Array<IconName>;\n  ").data) _ hrsne hrsnl
    (("  \t").data) (by decide)]
  have hw : splitNlAux [] (("  ] satisfies Array<IconName>;\n  ").data) =
      [("  ] satisfies Array<IconName>;").data, ("  ").data] := by decide
  rw [hw]
  simp only [List.reverse_nil, List.nil_append, List.drop_succ_cons, List.drop_zero]
  rw [show decorateI (("  \t").data) ((stringifiedIconNamesOf o).map String.data) ++
      [("  ] satisfies Array<IconName>;").data, ("  ").data] =
    ((decorateI (("  \t").data) ((stringifiedIconNamesOf o).map String.data) ++
      [("  ] satisfies Array<IconName>;").data]) ++ [("  ").data]) from by simp]
  rw [List.dropLast_concat, List.dropLast_concat]
  rw [show (fun l => (⟨stripIconLine l⟩ : String)) =
    (fun l => (⟨l⟩ : String)) ∘ stripIconLine from rfl]
  rw [← List.map_map]
  rw [decorateI_strip _ _ hrshape (by decide)]
  rw [List.map_map]
  exact map_mk_data _

/-- C5: the generated type-declaration union and the generated identifier
array list exactly the quoted identifiers derived from the input files, in
exactly the caller-supplied file order, never sorted or reordered, and both
artifacts list them in the same order: reading the literals back out of
either generated text, line by line, yields the map of the derivation over
the files list itself (single-quoted in the union, double-quoted in the
array). -/
theorem C5_ordering_preserved (o : GenerateIconFilesOptions) (hne : o.files ≠ []) :
    extractTypeLiterals (typeOutputContentOf o) =
      o.files.map (fun f => replaceQuotes (jsonStringify (iconName f))) ∧
    extractIconLiterals (iconsOutputContentOf o) =
      o.files.map (fun f => jsonStringify (iconName f)) := by
  constructor
  · rw [extract_types o hne]
    unfold stringifiedIconNamesOf iconNamesOf
    rw [List.map_map, List.map_map]
    rfl
  · rw [extract_icons o hne]
    unfold stringifiedIconNamesOf iconNamesOf
    rw [List.map_map]
    rfl

/-- C5 witness: the three-file scenario in the fixed order a, b, c. -/
theorem C5_ordering_preserved_witness :
    extractTypeLiterals (typeOutputContentOf c5o) =
      c5o.files.map (fun f => replaceQuotes (jsonStringify (iconName f))) ∧
    extractIconLiterals (iconsOutputContentOf c5o) =
      c5o.files.map (fun f => jsonStringify (iconName f)) :=
  C5_ordering_preserved c5o (by decide)

/-- C1 witness: the hash-only-change scenario instantiates the amended
aggregation rule, which reports the OR of the three non-hash flags. -/
theorem C1_overall_or_three_witness :
    generateIconFiles wExt c1o c1fs =
      .ok (.generated false false false (some true) false, c1fs4) ∧
    (false : Bool) = (false || false || false) :=
  ⟨rfl, C1_overall_or_three wExt c1o c1fs c1fs4 false false false (some true) false rfl⟩
